import Mathlib

/-!
Verification development for the Poco `SocketProactor` (Net/include/Poco/Net/SocketProactor.h).

The header defines the data model (`Handler`, `IONotification`, the subscriber maps),
the inline I/O completion executor (`IOCompletion::runOne`, `IOCompletion::run`),
the inline `SocketProactor::enqueueIONotification`, the default arguments of `addWork`,
and the constant `DEFAULT_MAX_TIMEOUT_MS`.  Method bodies living in `SocketProactor.cpp`
(the `add*` registration operations, the internal `send`/`receive`, `doWork`, `runOne`,
`runImpl`, `setTimeout`/`getTimeout`, and the value of `PERMANENT_COMPLETION_HANDLER`)
are modelled from the specification, as marked in the individual doc comments.
-/

namespace Poco
namespace Net

/-- Model of a `std::error_code` category; `enqueueIONotification` always uses
`std::generic_category()`, other categories exist in the ambient environment. -/
inductive ErrCategory where
  | generic
  | system
  | other
deriving DecidableEq

/-- Model of `std::error_code`: an integer value together with its category. -/
structure ErrorCode where
  value : Int
  category : ErrCategory
deriving DecidableEq

/-- Outcome of invoking a user callback: it either returns normally or throws
an exception (payload irrelevant here). -/
abbrev CbResult := Except Unit Unit

/-- The conversion applied when the `int _bytes` field is passed to the callback
parameter `std::size_t bytesReceived` (64-bit `size_t`). -/
def toSizeT (i : Int) : Nat := (i % (2 : Int) ^ 64).toNat

/-- Body of a non-null `SocketProactor::Callback`
(`std::function<void (const std::error_code&, std::size_t)>`); invoking it may throw. -/
abbrev CbFun := ErrorCode → Nat → CbResult

/-- `SocketProactor::Callback` is a `std::function`, hence nullable: `none` models
the empty function. -/
abbrev Callback := Option CbFun

/-- `IONotification` (SocketProactor.h lines 211-239): stores the moved-in
completion callback, the `int` byte count and the error code given at construction. -/
structure IONotification where
  onCompletion : Callback
  bytes : Int
  errorCode : ErrorCode

/-- Record of one callback invocation: the function invoked and the two
arguments it received. -/
abbrev CallRec := CbFun × ErrorCode × Nat

/-- `IONotification::call` (lines 229-233): `_onCompletion(_errorCode, _bytes)`,
with the `int → std::size_t` conversion on the second argument.  Calling a null
`std::function` throws `std::bad_function_call`, modelled as `Except.error`. -/
def IONotification.call (nf : IONotification) : CbResult :=
  match nf.onCompletion with
  | none => Except.error ()
  | some f => f nf.errorCode (toSizeT nf.bytes)

/-- Observable result of one `IOCompletion::runOne` step:
whether an exception escaped, the C++ return value, the remaining queue,
the invocations performed (in order) and the notifications released. -/
structure RunOneRes where
  threw : Bool
  retVal : Bool
  queue : List IONotification
  calls : List CallRec
  released : List IONotification

/-- `IOCompletion::runOne` (lines 286-297): dequeue one notification (the internal
`NotificationQueue` holds only `IONotification`s, so the `dynamic_cast` succeeds
whenever the dequeue is non-null); if one was obtained, `call()` it and then
`release()` it and return `true`, else return `false`.  There is no `try`/`catch`:
an exception thrown by `call()` escapes `runOne` and skips the `release()`. -/
def IOCompletion.runOne (q : List IONotification) : RunOneRes :=
  match q with
  | [] => ⟨false, false, [], [], []⟩
  | nf :: rest =>
    match nf.onCompletion with
    | none => ⟨true, false, rest, [], []⟩
    | some f =>
      match f nf.errorCode (toSizeT nf.bytes) with
      | Except.ok _ => ⟨false, true, rest, [(f, nf.errorCode, toSizeT nf.bytes)], [nf]⟩
      | Except.error _ => ⟨true, false, rest, [(f, nf.errorCode, toSizeT nf.bytes)], []⟩

/-- Modelled from the spec: `SocketProactor::runImpl` (declared at SocketProactor.h
line 320, body in SocketProactor.cpp, not in src).  Per §4.3/§4.4 the backoff sleep
"grows from 0 up to a cap ... and resets to 0 on any productive cycle"; the exact
growth schedule is unspecified (§9), modelled as exponential doubling clamped at
`maxSleep`.  Returns the updated value of the by-reference `sleepMS`. -/
def SocketProactor.runImpl (runCond : Bool) (sleepMS : Nat) (maxSleep : Nat) : Nat :=
  if runCond then 0
  else min (if sleepMS = 0 then 1 else sleepMS * 2) maxSleep

/-- `IOCompletion::run` (lines 299-307): `while (!stopped) runImpl(!_nq.empty() && runOne(), _timeout, _maxTimeout)`.
The activity-stop condition is modelled by fuel; an exception escaping `runOne`
escapes the `while` loop, terminating the worker.  Returns
(exception escaped, remaining queue, invocation trace, final backoff value). -/
def IOCompletion.run (fuel : Nat) (sleepMS maxSleep : Nat) (q : List IONotification)
    (calls : List CallRec) : Bool × List IONotification × List CallRec × Nat :=
  match fuel with
  | 0 => (false, q, calls, sleepMS)
  | fuel' + 1 =>
    match q with
    | [] => IOCompletion.run fuel' (SocketProactor.runImpl false sleepMS maxSleep) maxSleep [] calls
    | _ :: _ =>
      let r := IOCompletion.runOne q
      if r.threw then (true, r.queue, calls ++ r.calls, sleepMS)
      else IOCompletion.run fuel' (SocketProactor.runImpl r.retVal sleepMS maxSleep) maxSleep
        r.queue (calls ++ r.calls)

/-- `poco_socket_t`: a stable socket identifier. -/
abbrev SocketId := Nat

/-- `Handler` (SocketProactor.h lines 199-209): one pending I/O request.
Buffer and peer address are opaque references here (their contents play no
role in the queueing discipline); `owner` is the ownership flag. -/
structure Handler where
  pBuf : Option Nat
  pAddr : Option Nat
  onCompletion : Callback
  owner : Bool

/-- One direction of `SubscriberMap` (line 318):
`std::unordered_map<poco_socket_t, std::deque<std::unique_ptr<Handler>>>`,
modelled as the key → deque association it denotes.  The read map and the
write map are two independent instances of this type. -/
abbrev SubscriberMap := SocketId → List Handler

/-- The empty subscriber map. -/
def SubscriberMap.empty : SubscriberMap := fun _ => []

/-- Modelled from the spec: the `add*` registration operations
(`addReceive`/`addSend`/`addReceiveFrom`/`addSendTo`, bodies in SocketProactor.cpp,
not in src) append a Handler record to the back of the per-socket queue,
creating the queue when the socket is not yet present (§4.1, §4.5). -/
def SubscriberMap.append (m : SubscriberMap) (s : SocketId) (h : Handler) : SubscriberMap :=
  fun s' => if s' = s then m s ++ [h] else m s'

/-- Remove the head Handler of socket `s`'s queue. -/
def SubscriberMap.popHead (m : SubscriberMap) (s : SocketId) : SubscriberMap :=
  fun s' => if s' = s then (m s).tail else m s'

/-- Result of the underlying non-blocking socket primitive (§6): a byte
count on success, a would-block indication, or an errno failure. -/
inductive IOOutcome where
  | ok (n : Nat)
  | wouldBlock
  | err (errno : Int)
deriving DecidableEq

/-- State touched by one direction of the poll/dispatch loop: the per-socket
handler queues and the completion executor's notification queue. -/
structure DispatchState where
  handlers : SubscriberMap
  completionQueue : List IONotification

/-- `SocketProactor::enqueueIONotification` (SocketProactor.h lines 380-388):
if the callback is non-null, enqueue a new `IONotification` carrying the moved
callback, the byte count `n` and `std::error_code(err, std::generic_category())`;
a null callback enqueues nothing. -/
def SocketProactor.enqueueIONotification (onCompletion : Callback) (n : Int) (err : Int)
    (q : List IONotification) : List IONotification :=
  match onCompletion with
  | none => q
  | some f => q ++ [⟨some f, n, ⟨err, ErrCategory.generic⟩⟩]

/-- Modelled from the spec: the internal `SocketProactor::send(Socket&)` /
`receive(Socket&)` (declared at lines 322-332, bodies in SocketProactor.cpp,
not in src).  Per §4.3: look up the per-socket queue; if empty, return 0;
peek the head Handler and run the non-blocking primitive (outcome `o`);
on success enqueue `(callback, n, 0)` and pop the head; on would-block leave
the Handler in place and return 0; on any other error enqueue
`(callback, 0, errno)` and pop.  Returns the C++ return value and the new state. -/
def SocketProactor.ioDispatch (st : DispatchState) (s : SocketId) (o : IOOutcome) :
    Int × DispatchState :=
  match st.handlers s with
  | [] => (0, st)
  | h :: _ =>
    match o with
    | IOOutcome.ok n =>
      ((n : Int),
       ⟨st.handlers.popHead s,
        SocketProactor.enqueueIONotification h.onCompletion (n : Int) 0 st.completionQueue⟩)
    | IOOutcome.wouldBlock => (0, st)
    | IOOutcome.err e =>
      (0,
       ⟨st.handlers.popHead s,
        SocketProactor.enqueueIONotification h.onCompletion 0 e st.completionQueue⟩)

/-- The Handler consumed (popped with a completion enqueued) by
`ioDispatch st s o`, if any. -/
def consumedBy (st : DispatchState) (s : SocketId) (o : IOOutcome) : Option Handler :=
  match st.handlers s, o with
  | [], _ => none
  | _ :: _, IOOutcome.wouldBlock => none
  | h :: _, IOOutcome.ok _ => some h
  | h :: _, IOOutcome.err _ => some h

/-- One event of a proactor run touching one direction: either a registration
call appending a Handler for a socket, or the poll loop servicing a readiness
event on a socket with the given primitive outcome. -/
inductive ProactorOp where
  | addH (s : SocketId) (h : Handler)
  | ioReady (s : SocketId) (o : IOOutcome)

/-- Apply one event to the dispatch state. -/
def ProactorOp.apply (st : DispatchState) : ProactorOp → DispatchState
  | ProactorOp.addH s h => ⟨st.handlers.append s h, st.completionQueue⟩
  | ProactorOp.ioReady s o => (SocketProactor.ioDispatch st s o).2

/-- Run a sequence of events from a given state. -/
def runOps (st : DispatchState) (ops : List ProactorOp) : DispatchState :=
  ops.foldl ProactorOp.apply st

/-- The callbacks appended for socket `s` by the events, in order. -/
def addedFor (s : SocketId) (ops : List ProactorOp) : List Callback :=
  ops.filterMap fun op =>
    match op with
    | ProactorOp.addH s' h => if s' = s then some h.onCompletion else none
    | ProactorOp.ioReady _ _ => none

/-- The callbacks of the Handlers consumed for socket `s` while running the
events from `st`, in consumption order. -/
def consumedFor (st : DispatchState) (s : SocketId) : List ProactorOp → List Callback
  | [] => []
  | op :: ops =>
    match op with
    | ProactorOp.addH _ _ => consumedFor (op.apply st) s ops
    | ProactorOp.ioReady s' o =>
      (if s' = s then (consumedBy st s' o).toList.map Handler.onCompletion else [])
        ++ consumedFor (op.apply st) s ops

/-- Body of a `SocketProactor::Work` (`std::function<void()>`); invoking it may throw. -/
abbrev WorkFn := Unit → CbResult

/-- Modelled from the spec: the value of `SocketProactor::PERMANENT_COMPLETION_HANDLER`
(declared at SocketProactor.h line 66, defined in SocketProactor.cpp, not in src).
Per §6 it is the "sentinel for permanent-work expiration"; modelled as the maximum
`Timestamp::TimeDiff` (Int64) value, distinct from every finite expiration. -/
def SocketProactor.PERMANENT_COMPLETION_HANDLER : Int := 2 ^ 63 - 1

/-- Expiration of a scheduled work entry (§3): a permanent marker or an
absolute deadline timestamp (milliseconds). -/
inductive Expiry where
  | permanent
  | deadline (t : Int)
deriving DecidableEq

/-- A scheduled work entry: the user callback and its expiration. -/
structure WorkEntry where
  fn : WorkFn
  expiry : Expiry

/-- The work schedule, in insertion order (§4.2 "Ordering"). -/
abbrev Schedule := List WorkEntry

/-- Modelled from the spec: `SocketProactor::addWork` (declared at SocketProactor.h
lines 82-92, body in SocketProactor.cpp, not in src).  Per §4.2: the sentinel
expiration marks the entry permanent, any other non-negative value is an absolute
deadline `now + ms`; a non-negative `pos` front-inserts at that index, otherwise
the entry is appended. -/
def SocketProactor.addWork (sch : Schedule) (now : Int) (fn : WorkFn) (ms : Int)
    (pos : Int) : Schedule :=
  let e : WorkEntry :=
    ⟨fn, if ms = SocketProactor.PERMANENT_COMPLETION_HANDLER then Expiry.permanent
         else Expiry.deadline (now + ms)⟩
  if pos < 0 then sch ++ [e] else sch.insertIdx pos.toNat e

/-- `SocketProactor::addWork` called without explicit `ms`/`pos` arguments:
the defaults from SocketProactor.h lines 82 and 88 are
`ms = PERMANENT_COMPLETION_HANDLER` and `pos = -1`. -/
def SocketProactor.addWorkDefault (sch : Schedule) (now : Int) (fn : WorkFn) : Schedule :=
  SocketProactor.addWork sch now fn SocketProactor.PERMANENT_COMPLETION_HANDLER (-1)

/-- Modelled from the spec: one `doWork` decision for a single entry at time `now`
(§4.2 `do_work`): in expired-only mode, only deadline entries whose deadline has
passed are invoked (and removed); otherwise permanent entries and not-yet-expired
deadline entries are invoked and kept, while an expired deadline entry receives
its final invocation and is removed. -/
def entryDecision (expiredOnly : Bool) (now : Int) (e : WorkEntry) :
    Bool × Bool :=
  match e.expiry with
  | Expiry.permanent => (!expiredOnly, true)
  | Expiry.deadline t =>
    if t ≤ now then (true, false)
    else (!expiredOnly, true)

/-- Modelled from the spec: `SocketProactor::doWork` (declared at SocketProactor.h
lines 181-186, body in SocketProactor.cpp, not in src).  Iterates the schedule in
insertion order applying `entryDecision`; exceptions from the invoked callbacks
are swallowed (§7 "Scheduled-work failure"); if `handleOne` is set, iteration
stops after the first invocation (§4.2).  Returns the number of invocations,
the remaining schedule and the outcomes of the invocations in order. -/
def SocketProactor.doWork (handleOne expiredOnly : Bool) (now : Int) :
    Schedule → Nat × Schedule × List CbResult
  | [] => (0, [], [])
  | e :: rest =>
    let d := entryDecision expiredOnly now e
    if d.1 then
      let out := e.fn ()
      let kept := if d.2 then [e] else []
      if handleOne then (1, kept ++ rest, [out])
      else
        let r := SocketProactor.doWork handleOne expiredOnly now rest
        (r.1 + 1, kept ++ r.2.1, out :: r.2.2)
    else
      let r := SocketProactor.doWork handleOne expiredOnly now rest
      let kept := if d.2 then [e] else []
      (r.1, kept ++ r.2.1, r.2.2)

/-- Modelled from the spec: `SocketProactor::runOne` (declared at SocketProactor.h
lines 119-125, body in SocketProactor.cpp, not in src).  Per §4.2 `run_one`:
blocks until at least one entry is ready (every entry of a non-empty schedule is
invocable in normal mode, so blocking amounts to waiting for a non-empty
schedule, modelled by a precondition at the call site), invokes one entry via
`doWork(handleOne = true)`, and returns 1 when the invocation returned normally
and 0 when it raised an error (swallowed). -/
def SocketProactor.runOneWork (now : Int) (sch : Schedule) : Nat × Schedule :=
  let r := SocketProactor.doWork true false now sch
  (match r.2.2 with
   | [Except.ok _] => 1
   | _ => 0,
   r.2.1)

/-- `SocketProactor::DEFAULT_MAX_TIMEOUT_MS` (SocketProactor.h line 197). -/
def SocketProactor.DEFAULT_MAX_TIMEOUT_MS : Int := 250

/-- The configuration state relevant to `setTimeout`/`getTimeout`: the poll
timeout in milliseconds. -/
structure ProactorConfig where
  timeoutMs : Int
deriving DecidableEq

/-- Modelled from the spec: the `SocketProactor(bool worker)` constructor
(body in SocketProactor.cpp, not in src) uses the default timeout
`DEFAULT_MAX_TIMEOUT_MS` = 250 ms (src line 197; §6 "default 250 ms"). -/
def SocketProactor.mkDefault : ProactorConfig :=
  ⟨SocketProactor.DEFAULT_MAX_TIMEOUT_MS⟩

/-- Modelled from the spec: `SocketProactor::setTimeout` (declared at
SocketProactor.h lines 139-148, body in SocketProactor.cpp, not in src):
replaces the stored timeout. -/
def SocketProactor.setTimeout (_c : ProactorConfig) (t : Int) : ProactorConfig := ⟨t⟩

/-- Modelled from the spec: `SocketProactor::getTimeout` (declared at
SocketProactor.h lines 150-151, body in SocketProactor.cpp, not in src):
returns the stored timeout. -/
def SocketProactor.getTimeout (c : ProactorConfig) : Int := c.timeoutMs

/-- Configuration events: a `setTimeout` call, or any other proactor operation
(which, per §6 "Configuration", leaves the timeout untouched). -/
inductive ConfigOp where
  | setT (t : Int)
  | other
deriving DecidableEq

/-- Apply one configuration event. -/
def ConfigOp.apply (c : ProactorConfig) : ConfigOp → ProactorConfig
  | ConfigOp.setT t => SocketProactor.setTimeout c t
  | ConfigOp.other => c

/-- The byte count the dispatch passes to `enqueueIONotification` for a given
primitive outcome: the transferred count on success, 0 on error (§4.3). -/
def ioBytesValue : IOOutcome → Int
  | IOOutcome.ok n => (n : Int)
  | IOOutcome.wouldBlock => 0
  | IOOutcome.err _ => 0

/-- The errno the dispatch passes to `enqueueIONotification` for a given
primitive outcome: 0 on success, the errno on error (§4.3). -/
def ioErrValue : IOOutcome → Int
  | IOOutcome.ok _ => 0
  | IOOutcome.wouldBlock => 0
  | IOOutcome.err e => e

/-- A concrete callback that returns normally. -/
def cbOk : CbFun := fun _ _ => Except.ok ()

/-- A concrete callback that throws. -/
def cbThrow : CbFun := fun _ _ => Except.error ()

/-- A concrete work function that returns normally. -/
def fnOk : WorkFn := fun _ => Except.ok ()

/-- A concrete notification whose callback throws. -/
def nfThrow : IONotification := ⟨some cbThrow, 5, ⟨0, ErrCategory.generic⟩⟩

/-- A concrete notification whose callback returns normally. -/
def nfOk : IONotification := ⟨some cbOk, 3, ⟨0, ErrCategory.generic⟩⟩

theorem SubscriberMap.append_self (m : SubscriberMap) (s : SocketId) (h : Handler) :
    m.append s h s = m s ++ [h] := by
  simp [SubscriberMap.append]

theorem SubscriberMap.append_other (m : SubscriberMap) (s s' : SocketId) (h : Handler)
    (hne : s' ≠ s) : m.append s h s' = m s' := by
  simp [SubscriberMap.append, hne]

theorem SubscriberMap.popHead_self (m : SubscriberMap) (s : SocketId) :
    m.popHead s s = (m s).tail := by
  simp [SubscriberMap.popHead]

theorem SubscriberMap.popHead_other (m : SubscriberMap) (s s' : SocketId)
    (hne : s' ≠ s) : m.popHead s s' = m s' := by
  simp [SubscriberMap.popHead, hne]

/-- The completion-queue effect of one dispatch step: exactly the notification
built from the consumed Handler's callback is appended (nothing otherwise). -/
theorem ioDispatch_completionQueue (st : DispatchState) (s : SocketId) (o : IOOutcome) :
    (SocketProactor.ioDispatch st s o).2.completionQueue
      = (match consumedBy st s o with
         | none => st.completionQueue
         | some h =>
           SocketProactor.enqueueIONotification h.onCompletion (ioBytesValue o) (ioErrValue o)
             st.completionQueue) := by
  cases hq : st.handlers s with
  | nil => cases o <;> simp [SocketProactor.ioDispatch, consumedBy, hq]
  | cons h rest =>
    cases o <;>
      simp [SocketProactor.ioDispatch, consumedBy, hq, ioBytesValue, ioErrValue]

/-- One dispatch step on socket `s'` leaves the handler queue of any other
socket untouched. -/
theorem ioDispatch_handlers_other (st : DispatchState) (s s' : SocketId) (o : IOOutcome)
    (hne : s ≠ s') : (SocketProactor.ioDispatch st s' o).2.handlers s = st.handlers s := by
  cases hq : st.handlers s' with
  | nil => cases o <;> simp [SocketProactor.ioDispatch, hq]
  | cons h rest =>
    cases o <;>
      simp [SocketProactor.ioDispatch, hq, SubscriberMap.popHead_other _ _ _ hne]

/-- The handler-queue effect of one dispatch step on its own socket:
the head is popped exactly when a Handler is consumed. -/
theorem ioDispatch_handlers_self (st : DispatchState) (s : SocketId) (o : IOOutcome) :
    (SocketProactor.ioDispatch st s o).2.handlers s
      = (match consumedBy st s o with
         | none => st.handlers s
         | some _ => (st.handlers s).tail) := by
  cases hq : st.handlers s with
  | nil => cases o <;> simp [SocketProactor.ioDispatch, consumedBy, hq]
  | cons h rest =>
    cases o <;>
      simp [SocketProactor.ioDispatch, consumedBy, hq, SubscriberMap.popHead_self, hq]

theorem runOps_nil (st : DispatchState) : runOps st [] = st := rfl

theorem runOps_cons (st : DispatchState) (op : ProactorOp) (ops : List ProactorOp) :
    runOps st (op :: ops) = runOps (op.apply st) ops := rfl

/-- When a Handler is consumed, it was the head of its socket's queue. -/
theorem consumedBy_head (st : DispatchState) (s : SocketId) (o : IOOutcome) (h : Handler)
    (hc : consumedBy st s o = some h) : st.handlers s = h :: (st.handlers s).tail := by
  unfold consumedBy at hc
  cases hq : st.handlers s with
  | nil => rw [hq] at hc; cases o <;> simp at hc
  | cons h' rest => rw [hq] at hc; cases o <;> simp_all

/-- FIFO invariant of the per-socket queues: the callbacks consumed so far,
followed by the callbacks still pending, are exactly the initially pending
callbacks followed by the appended ones, in order. -/
theorem consumedFor_fifo (s : SocketId) (ops : List ProactorOp) (st : DispatchState) :
    consumedFor st s ops ++ ((runOps st ops).handlers s).map Handler.onCompletion
      = ((st.handlers s).map Handler.onCompletion) ++ addedFor s ops := by
  induction ops generalizing st with
  | nil => simp [consumedFor, runOps_nil, addedFor]
  | cons op ops ih =>
    cases op with
    | addH s' h =>
      have hcf : consumedFor st s (ProactorOp.addH s' h :: ops)
          = consumedFor ((ProactorOp.addH s' h).apply st) s ops := rfl
      rw [hcf, runOps_cons, ih]
      by_cases hss : s' = s
      · subst hss
        simp [ProactorOp.apply, SubscriberMap.append_self, addedFor, List.filterMap_cons]
      · have hne : s ≠ s' := fun hh => hss hh.symm
        simp [ProactorOp.apply, SubscriberMap.append_other _ _ _ _ hne, addedFor,
          List.filterMap_cons, hss]
    | ioReady s' o =>
      have hcf : consumedFor st s (ProactorOp.ioReady s' o :: ops)
          = (if s' = s then (consumedBy st s' o).toList.map Handler.onCompletion else [])
            ++ consumedFor ((ProactorOp.ioReady s' o).apply st) s ops := rfl
      have hadd : addedFor s (ProactorOp.ioReady s' o :: ops) = addedFor s ops := by
        simp [addedFor, List.filterMap_cons]
      rw [hcf, runOps_cons, List.append_assoc, ih, hadd]
      by_cases hss : s' = s
      · subst hss
        have happ : (ProactorOp.ioReady s' o).apply st = (SocketProactor.ioDispatch st s' o).2 :=
          rfl
        rw [happ, ioDispatch_handlers_self]
        cases hcons : consumedBy st s' o with
        | none => simp
        | some h =>
          have hhead := consumedBy_head st s' o h hcons
          rw [hhead]
          simp
      · have hne : s ≠ s' := fun hh => hss hh.symm
        have happ : ((ProactorOp.ioReady s' o).apply st).handlers s = st.handlers s :=
          ioDispatch_handlers_other st s s' o hne
        simp [hss, happ]

/-- A shared concrete Handler with a non-null callback. -/
def hdlOk : Handler := ⟨none, none, some cbOk, false⟩

/-- A shared concrete dispatch state: every socket has the one pending Handler
`hdlOk`, the completion queue is empty. -/
def stOne : DispatchState := ⟨fun _ => [hdlOk], []⟩

/-- Claim C1: for every socket and direction, Handler records appended by the
`add*` calls are consumed in FIFO order: starting from the empty maps, the
callbacks consumed so far followed by the callbacks still pending equal the
appended callbacks in append order; and each consumption enqueues exactly the
completion notification carrying the consumed Handler's callback. -/
theorem c1_fifo_per_socket_direction (s : SocketId) (ops : List ProactorOp)
    (st : DispatchState) (o : IOOutcome) :
    consumedFor ⟨SubscriberMap.empty, []⟩ s ops
        ++ ((runOps ⟨SubscriberMap.empty, []⟩ ops).handlers s).map Handler.onCompletion
      = addedFor s ops ∧
    (SocketProactor.ioDispatch st s o).2.completionQueue
      = (match consumedBy st s o with
         | none => st.completionQueue
         | some h =>
           SocketProactor.enqueueIONotification h.onCompletion (ioBytesValue o) (ioErrValue o)
             st.completionQueue) := by
  constructor
  · have := consumedFor_fifo s ops ⟨SubscriberMap.empty, []⟩
    simpa [SubscriberMap.empty] using this
  · exact ioDispatch_completionQueue st s o

/-- Claim C5: on a would-block outcome the dispatch returns 0, leaves the head
Handler of the socket's queue in place and enqueues no completion notification. -/
theorem c5_would_block_leaves_handler (st : DispatchState) (s : SocketId) (h : Handler)
    (rest : List Handler) (hq : st.handlers s = h :: rest) :
    SocketProactor.ioDispatch st s IOOutcome.wouldBlock = (0, st) ∧
    (SocketProactor.ioDispatch st s IOOutcome.wouldBlock).2.handlers s = h :: rest ∧
    (SocketProactor.ioDispatch st s IOOutcome.wouldBlock).2.completionQueue
      = st.completionQueue := by
  have h1 : SocketProactor.ioDispatch st s IOOutcome.wouldBlock = (0, st) := by
    simp [SocketProactor.ioDispatch, hq]
  exact ⟨h1, by rw [h1]; exact hq, by rw [h1]⟩

/-- Witness for C5 at a concrete state. -/
theorem c5_witness :
    SocketProactor.ioDispatch stOne 0 IOOutcome.wouldBlock = (0, stOne) ∧
    (SocketProactor.ioDispatch stOne 0 IOOutcome.wouldBlock).2.handlers 0 = [hdlOk] ∧
    (SocketProactor.ioDispatch stOne 0 IOOutcome.wouldBlock).2.completionQueue
      = stOne.completionQueue :=
  c5_would_block_leaves_handler stOne 0 hdlOk [] rfl

/-- The updated backoff value never exceeds the cap. -/
theorem runImpl_le (b : Bool) (s m : Nat) : SocketProactor.runImpl b s m ≤ m := by
  unfold SocketProactor.runImpl
  split
  · exact Nat.zero_le m
  · exact min_le_right _ _

/-- Through any run of the completion worker loop, the backoff value stays
bounded by the cap. -/
theorem run_sleep_le (fuel : Nat) (sleep m : Nat) (q : List IONotification)
    (calls : List CallRec) (hs : sleep ≤ m) :
    (IOCompletion.run fuel sleep m q calls).2.2.2 ≤ m := by
  induction fuel generalizing sleep q calls with
  | zero => simpa [IOCompletion.run] using hs
  | succ n ih =>
    cases q with
    | nil => exact ih _ _ _ (runImpl_le _ _ _)
    | cons nf rest =>
      simp only [IOCompletion.run]
      split
      · simpa using hs
      · exact ih _ _ _ (runImpl_le _ _ _)

/-- Claim C6: the adaptive backoff never exceeds the configured maximum
timeout — neither in one `runImpl` update nor across a whole worker run —
and it resets to zero on any iteration in which work was performed. -/
theorem c6_backoff_bounded (b : Bool) (s fuel sleep m : Nat) (q : List IONotification)
    (calls : List CallRec) (hs : sleep ≤ m) :
    SocketProactor.runImpl b s m ≤ m ∧
    SocketProactor.runImpl true s m = 0 ∧
    (IOCompletion.run fuel sleep m q calls).2.2.2 ≤ m :=
  ⟨runImpl_le b s m, rfl, run_sleep_le fuel sleep m q calls hs⟩

/-- Witness for C6 at concrete values. -/
theorem c6_witness :
    SocketProactor.runImpl false 123 250 ≤ 250 ∧
    SocketProactor.runImpl true 123 250 = 0 ∧
    (IOCompletion.run 4 0 250 [nfOk] []).2.2.2 ≤ 250 :=
  c6_backoff_bounded false 123 4 0 250 [nfOk] [] (by decide)

/-- Claim C8: every notification added to the completion queue by a dispatch
step carries an error code of the generic category, whose value is 0 exactly
for a successful operation and the failing errno otherwise. -/
theorem c8_generic_category_errno (st : DispatchState) (s : SocketId) (o : IOOutcome)
    (nf : IONotification)
    (hmem : nf ∈ (SocketProactor.ioDispatch st s o).2.completionQueue)
    (hnew : nf ∉ st.completionQueue) :
    nf.errorCode.category = ErrCategory.generic ∧ nf.errorCode.value = ioErrValue o := by
  rw [ioDispatch_completionQueue] at hmem
  cases hcons : consumedBy st s o with
  | none => rw [hcons] at hmem; exact absurd hmem hnew
  | some h =>
    rw [hcons] at hmem
    dsimp only at hmem
    unfold SocketProactor.enqueueIONotification at hmem
    cases hcb : h.onCompletion with
    | none => rw [hcb] at hmem; exact absurd hmem hnew
    | some f =>
      rw [hcb] at hmem
      dsimp only at hmem
      rcases List.mem_append.mp hmem with hold | hnewone
      · exact absurd hold hnew
      · have heq : nf = ⟨some f, ioBytesValue o, ⟨ioErrValue o, ErrCategory.generic⟩⟩ :=
          List.mem_singleton.mp hnewone
        rw [heq]
        exact ⟨rfl, rfl⟩

/-- Witness for C8 at a concrete dispatch step. -/
theorem c8_witness :
    (⟨some cbOk, 5, ⟨0, ErrCategory.generic⟩⟩ : IONotification).errorCode.category
        = ErrCategory.generic ∧
    (⟨some cbOk, 5, ⟨0, ErrCategory.generic⟩⟩ : IONotification).errorCode.value
        = ioErrValue (IOOutcome.ok 5) :=
  c8_generic_category_errno stOne 0 (IOOutcome.ok 5) ⟨some cbOk, 5, ⟨0, ErrCategory.generic⟩⟩
    (by simp [stOne, hdlOk, SocketProactor.ioDispatch, SocketProactor.enqueueIONotification])
    (by simp [stOne])

/-- A fold over configuration events containing no `setTimeout` call leaves the
configuration unchanged. -/
theorem foldl_configOp_const (ops : List ConfigOp) (c : ProactorConfig)
    (hops : ∀ t, ConfigOp.setT t ∉ ops) : ops.foldl ConfigOp.apply c = c := by
  induction ops generalizing c with
  | nil => rfl
  | cons op ops ih =>
    cases op with
    | setT t => exact absurd (List.mem_cons_self _ _) (hops t)
    | other =>
      simp only [List.foldl_cons]
      exact ih c fun t hmem => hops t (List.mem_cons_of_mem _ hmem)

/-- Claim C9: a proactor built without an explicit timeout has the default
250 ms poll timeout, `getTimeout` keeps returning it across any sequence of
operations that does not call `setTimeout`, and `setTimeout` replaces it. -/
theorem c9_default_timeout_250 (ops : List ConfigOp) (c : ProactorConfig) (t : Int)
    (hops : ∀ u, ConfigOp.setT u ∉ ops) :
    SocketProactor.getTimeout SocketProactor.mkDefault = 250 ∧
    SocketProactor.getTimeout (ops.foldl ConfigOp.apply SocketProactor.mkDefault) = 250 ∧
    SocketProactor.getTimeout (SocketProactor.setTimeout c t) = t := by
  refine ⟨rfl, ?_, rfl⟩
  rw [foldl_configOp_const ops _ hops]
  rfl

/-- Witness for C9 at concrete values. -/
theorem c9_witness :
    SocketProactor.getTimeout SocketProactor.mkDefault = 250 ∧
    SocketProactor.getTimeout
        ([ConfigOp.other].foldl ConfigOp.apply SocketProactor.mkDefault) = 250 ∧
    SocketProactor.getTimeout (SocketProactor.setTimeout SocketProactor.mkDefault 500) = 500 :=
  c9_default_timeout_250 [ConfigOp.other] SocketProactor.mkDefault 500 (by simp)

/-- Claim C10: `enqueueIONotification` with a null callback enqueues nothing,
so an I/O request registered with a null callback never produces a completion,
whatever the outcome of its I/O operation. -/
theorem c10_null_callback_no_completion (n err : Int) (q : List IONotification)
    (st : DispatchState) (s : SocketId) (o : IOOutcome) (h : Handler)
    (hhead : (st.handlers s).head? = some h) (hcb : h.onCompletion = none) :
    SocketProactor.enqueueIONotification none n err q = q ∧
    (SocketProactor.ioDispatch st s o).2.completionQueue = st.completionQueue := by
  refine ⟨rfl, ?_⟩
  rw [ioDispatch_completionQueue]
  cases hcons : consumedBy st s o with
  | none => rfl
  | some h' =>
    have hhead' := consumedBy_head st s o h' hcons
    have hh : h' = h := by
      rw [hhead'] at hhead
      simpa using hhead
    dsimp only
    rw [hh, hcb]
    rfl

/-- A shared concrete Handler whose callback is null. -/
def hdlNull : Handler := ⟨none, none, none, false⟩

/-- A shared concrete dispatch state whose pending Handler has a null callback. -/
def stNull : DispatchState := ⟨fun _ => [hdlNull], []⟩

/-- Witness for C10 at a concrete state. -/
theorem c10_witness :
    SocketProactor.enqueueIONotification none 3 7 [] = [] ∧
    (SocketProactor.ioDispatch stNull 0 (IOOutcome.ok 5)).2.completionQueue
      = stNull.completionQueue :=
  c10_null_callback_no_completion 3 7 [] stNull 0 (IOOutcome.ok 5) hdlNull rfl rfl

/-- Claim C2, counterexample: a dequeued notification whose callback throws is
invoked exactly once but is NOT released afterwards (`runOne` has no catch, so
the `release()` after `call()` is skipped), refuting the unconditional
"released after that single invocation". -/
theorem c2_counterexample :
    (IOCompletion.runOne [nfThrow]).calls = [(cbThrow, ⟨0, ErrCategory.generic⟩, 5)] ∧
    ¬ (IOCompletion.runOne [nfThrow]).released = [nfThrow] := by
  constructor
  · rfl
  · intro hcontra
    have hrel : (IOCompletion.runOne [nfThrow]).released = [] := rfl
    rw [hrel] at hcontra
    exact List.noConfusion hcontra

/-- Claim C2 (amended): every dequeued notification with a (non-null) stored
callback has that callback invoked exactly once, with exactly the stored error
code and the stored byte count (the `int` passed as `size_t`, the identity on
non-negative values); the notification is released after the invocation when
the callback returns normally, while a throwing callback leaves it unreleased. -/
theorem c2_callback_invoked_once (nf : IONotification) (rest : List IONotification)
    (f : CbFun) (hcb : nf.onCompletion = some f) :
    (IOCompletion.runOne (nf :: rest)).calls = [(f, nf.errorCode, toSizeT nf.bytes)] ∧
    (IOCompletion.runOne (nf :: rest)).queue = rest ∧
    ((IOCompletion.runOne (nf :: rest)).threw = false →
      (IOCompletion.runOne (nf :: rest)).released = [nf] ∧
      (IOCompletion.runOne (nf :: rest)).retVal = true) ∧
    ((IOCompletion.runOne (nf :: rest)).threw = true →
      (IOCompletion.runOne (nf :: rest)).released = []) ∧
    (0 ≤ nf.bytes → nf.bytes < 2 ^ 64 → (toSizeT nf.bytes : Int) = nf.bytes) := by
  have htoNat : 0 ≤ nf.bytes → nf.bytes < 2 ^ 64 → (toSizeT nf.bytes : Int) = nf.bytes := by
    intro h1 h2
    unfold toSizeT
    omega
  have hrun : IOCompletion.runOne (nf :: rest)
      = (match f nf.errorCode (toSizeT nf.bytes) with
         | Except.ok _ =>
           (⟨false, true, rest, [(f, nf.errorCode, toSizeT nf.bytes)], [nf]⟩ : RunOneRes)
         | Except.error _ =>
           (⟨true, false, rest, [(f, nf.errorCode, toSizeT nf.bytes)], []⟩ : RunOneRes)) := by
    simp [IOCompletion.runOne, hcb]
  cases hout : f nf.errorCode (toSizeT nf.bytes) with
  | ok u =>
    rw [hrun, hout]
    exact ⟨rfl, rfl, fun _ => ⟨rfl, rfl⟩, fun h => Bool.noConfusion h, htoNat⟩
  | error u =>
    rw [hrun, hout]
    exact ⟨rfl, rfl, fun h => Bool.noConfusion h, fun _ => rfl, htoNat⟩

/-- Witness for C2 at a concrete notification with a normally returning callback. -/
theorem c2_witness :
    (IOCompletion.runOne [nfOk]).calls = [(cbOk, nfOk.errorCode, toSizeT nfOk.bytes)] ∧
    (IOCompletion.runOne [nfOk]).queue = [] ∧
    ((IOCompletion.runOne [nfOk]).threw = false →
      (IOCompletion.runOne [nfOk]).released = [nfOk] ∧
      (IOCompletion.runOne [nfOk]).retVal = true) ∧
    ((IOCompletion.runOne [nfOk]).threw = true →
      (IOCompletion.runOne [nfOk]).released = []) ∧
    (0 ≤ nfOk.bytes → nfOk.bytes < 2 ^ 64 → (toSizeT nfOk.bytes : Int) = nfOk.bytes) :=
  c2_callback_invoked_once nfOk [] cbOk rfl

/-- Claim C4, counterexample: with ample fuel and a queue holding a throwing
notification followed by a well-behaved one, the worker loop terminates with
the exception escaped and the second notification still unprocessed — the
exception is not caught and the loop does not continue. -/
theorem c4_counterexample :
    IOCompletion.run 5 0 250 [nfThrow, nfOk] []
      = (true, [nfOk], [(cbThrow, ⟨0, ErrCategory.generic⟩, 5)], 0) ∧
    ¬ (IOCompletion.run 5 0 250 [nfThrow, nfOk] []).2.1 = [] := by
  constructor
  · rfl
  · intro hcontra
    have hq : (IOCompletion.run 5 0 250 [nfThrow, nfOk] []).2.1 = [nfOk] := rfl
    rw [hq] at hcontra
    exact List.noConfusion hcontra

/-- Claim C4 (amended): an exception raised by a user callback is NOT caught by
the completion worker: it escapes `runOne` and the `while` loop of `run`,
terminating the worker regardless of remaining fuel, with the rest of the
queue unprocessed. -/
theorem c4_exception_terminates_worker (nf : IONotification) (rest : List IONotification)
    (f : CbFun) (fuel sleep maxSleep : Nat) (calls : List CallRec)
    (hcb : nf.onCompletion = some f)
    (hthrow : f nf.errorCode (toSizeT nf.bytes) = Except.error ()) :
    IOCompletion.run (fuel + 1) sleep maxSleep (nf :: rest) calls
      = (true, rest, calls ++ [(f, nf.errorCode, toSizeT nf.bytes)], sleep) := by
  simp [IOCompletion.run, IOCompletion.runOne, hcb, hthrow]

/-- Witness for C4 at a concrete throwing notification. -/
theorem c4_witness :
    IOCompletion.run (0 + 1) 7 250 [nfThrow] []
      = (true, [], [] ++ [(cbThrow, nfThrow.errorCode, toSizeT nfThrow.bytes)], 7) :=
  c4_exception_terminates_worker nfThrow [] cbThrow 0 7 250 [] rfl rfl

/-- Claim C3, evaluation at the failing input: `addWork` called with its
defaulted expiration argument (`= PERMANENT_COMPLETION_HANDLER`, SocketProactor.h
lines 82/88) creates a PERMANENT entry: a later `doWork` cycle invokes it and
keeps it, and a second cycle invokes it again — it is not "run once after the
next poll and then removed" as the doc comment (lines 84-86) states. -/
theorem c3_default_addWork_is_permanent :
    (SocketProactor.addWorkDefault [] 0 fnOk).map WorkEntry.expiry = [Expiry.permanent] ∧
    (SocketProactor.doWork false false 1 (SocketProactor.addWorkDefault [] 0 fnOk)).1 = 1 ∧
    ((SocketProactor.doWork false false 1
        (SocketProactor.addWorkDefault [] 0 fnOk)).2.1).map WorkEntry.expiry
      = [Expiry.permanent] ∧
    (SocketProactor.doWork false false 2
        ((SocketProactor.doWork false false 1
          (SocketProactor.addWorkDefault [] 0 fnOk)).2.1)).1 = 1 :=
  ⟨rfl, rfl, rfl, rfl⟩

/-- With `handleOne` set and `expiredOnly` clear, `doWork` on a non-empty
schedule invokes exactly the head entry and stops. -/
theorem doWork_handleOne_cons (now : Int) (e : WorkEntry) (rest : Schedule) :
    SocketProactor.doWork true false now (e :: rest)
      = (1, (if (entryDecision false now e).2 then [e] else []) ++ rest, [e.fn ()]) := by
  have hd1 : (entryDecision false now e).1 = true := by
    rcases e with ⟨fn, ex⟩
    cases ex with
    | permanent => rfl
    | deadline t =>
      unfold entryDecision
      dsimp only
      split <;> rfl
  unfold SocketProactor.doWork
  simp [hd1]

/-- Claim C7: on a non-empty schedule (the blocking of `runOne` is modelled by
requiring an available entry), exactly one entry — the first — is invoked, and
the call returns 1 when the invocation returns normally and 0 when it raises
an error, which is swallowed. -/
theorem c7_runOne_one_entry (now : Int) (e : WorkEntry) (rest : Schedule) :
    (SocketProactor.doWork true false now (e :: rest)).1 = 1 ∧
    (SocketProactor.doWork true false now (e :: rest)).2.2 = [e.fn ()] ∧
    SocketProactor.runOneWork now (e :: rest)
      = ((match e.fn () with
          | Except.ok _ => 1
          | Except.error _ => 0),
         (SocketProactor.doWork true false now (e :: rest)).2.1) := by
  have hdw := doWork_handleOne_cons now e rest
  refine ⟨by rw [hdw], by rw [hdw], ?_⟩
  unfold SocketProactor.runOneWork
  rw [hdw]
  cases hout : e.fn () with
  | ok u => rfl
  | error u => rfl

end Net
end Poco
